import Mathlib

/-!
Verification development for the `color_card_api` repository
(`src/color_card_api.py`, with `src/main.py` holding an older copy of the
same pipeline).  The Python functions `hex_to_rgb`, `get_gradient_color`,
the panel/glow geometry of `create_gradient_image`, the drawing order of
`create_gradient_image`, and the background-color path of the HTTP handler
`generate_image` are embedded as executable Lean definitions.

Real-number arithmetic of the source (Python floats) is modelled by exact
rational arithmetic over `ℚ`; Python `int(...)` applied to a float is
truncation toward zero (`pyTrunc`); Python `//` on integers is floor
division (`Int.fdiv`); Python list indexing (including negative-index
wrap-around) is `pyGet`; functions that can raise return `Option`.
-/

namespace ColorCard

/-- Python `int(q)` applied to a numeric value: truncation toward zero
(floor for nonnegative arguments, ceiling for negative ones). -/
def pyTrunc (q : ℚ) : ℤ := if 0 ≤ q then ⌊q⌋ else ⌈q⌉

/-- Truncation of an integer is that integer. -/
theorem pyTrunc_intCast (n : ℤ) : pyTrunc (n : ℚ) = n := by
  unfold pyTrunc
  split
  · exact Int.floor_intCast n
  · exact Int.ceil_intCast n

/-- On nonnegative arguments, Python truncation agrees with the floor. -/
theorem pyTrunc_eq_floor (q : ℚ) (h : 0 ≤ q) : pyTrunc q = ⌊q⌋ := by
  unfold pyTrunc
  exact if_pos h

/-- Truncation toward zero is monotone. -/
theorem pyTrunc_mono {q r : ℚ} (h : q ≤ r) : pyTrunc q ≤ pyTrunc r := by
  unfold pyTrunc
  split <;> split
  · exact Int.floor_le_floor h
  · next hq hr => exact absurd (le_trans hq h) hr
  · next hq hr =>
    have h1 : (⌈q⌉ : ℤ) ≤ 0 := by
      have : q ≤ ((0 : ℤ) : ℚ) := by push_cast; linarith [not_le.mp hq]
      exact Int.ceil_le.mpr this
    have h2 : (0 : ℤ) ≤ ⌊r⌋ := Int.floor_nonneg.mpr hr
    omega
  · exact Int.ceil_le_ceil h

/-- Python list indexing `xs[i]`: negative indices wrap around from the end,
and indices out of range raise `IndexError` (modelled as `none`). -/
def pyGet {α : Type} (xs : List α) (i : ℤ) : Option α :=
  if 0 ≤ i then xs[i.toNat]?
  else if 0 ≤ (xs.length : ℤ) + i then xs[((xs.length : ℤ) + i).toNat]?
  else none

/-- Nonnegative Python indices are plain indices. -/
theorem pyGet_nonneg {α : Type} (xs : List α) {i : ℤ} (h : 0 ≤ i) :
    pyGet xs i = xs[i.toNat]? := by
  unfold pyGet
  exact if_pos h

/-- Python `xs[-1]` is the last element of the list. -/
theorem pyGet_neg_one {α : Type} (xs : List α) : pyGet xs (-1) = xs.getLast? := by
  unfold pyGet
  rw [if_neg (by omega)]
  cases xs with
  | nil => simp
  | cons a tl =>
    rw [if_pos (by simp only [List.length_cons]; push_cast; omega)]
    rw [List.getLast?_eq_getElem?]
    congr 1
    simp only [List.length_cons]
    omega

/-- ASCII hexadecimal digit test (`0-9`, `a-f`, `A-F`). -/
def isHexDigit (c : Char) : Bool :=
  (('0' ≤ c && c ≤ '9') || ('a' ≤ c && c ≤ 'f')) || ('A' ≤ c && c ≤ 'F')

/-- Numeric value of an ASCII hexadecimal digit (0 for other characters). -/
def hexVal (c : Char) : ℤ :=
  if '0' ≤ c && c ≤ '9' then (c.toNat : ℤ) - ('0'.toNat : ℤ)
  else if 'a' ≤ c && c ≤ 'f' then (c.toNat : ℤ) - ('a'.toNat : ℤ) + 10
  else if 'A' ≤ c && c ≤ 'F' then (c.toNat : ℤ) - ('A'.toNat : ℤ) + 10
  else 0

/-- Characters that CPython `int(s, 16)` strips as surrounding whitespace. -/
def isPySpace (c : Char) : Bool :=
  c = ' ' || c = '\t' || c = '\n' || c = '\r' || c = '\x0b' || c = '\x0c'

/-- CPython `int(s, 16)` restricted to a two-character ASCII string `[a, b]`,
as produced by the slices `hex_color[i:i+2]` in `hex_to_rgb`.  CPython
accepts, besides two hex digits, a sign or surrounding whitespace around a
single digit (e.g. `int("+1", 16) = 1`, `int("-1", 16) = -1`,
`int(" 1", 16) = int("1 ", 16) = 1`); every other two-character ASCII string
raises `ValueError` (modelled as `none`).  Non-ASCII digit forms accepted by
CPython are outside the model. -/
def pyIntBase16Pair (a b : Char) : Option ℤ :=
  if isHexDigit a && isHexDigit b then some (16 * hexVal a + hexVal b)
  else if (isPySpace a || a = '+') && isHexDigit b then some (hexVal b)
  else if a = '-' && isHexDigit b then some (-(hexVal b))
  else if isHexDigit a && isPySpace b then some (hexVal a)
  else none

/-- Python `s.lstrip('#')`: removes every leading `'#'` character. -/
def lstripHash : List Char → List Char
  | [] => []
  | c :: cs => if c = '#' then lstripHash cs else c :: cs

/-- Embedding of `hex_to_rgb` (src/color_card_api.py lines 28-37 and
src/main.py lines 12-22): strip all leading `#`, require exactly six
remaining characters, then parse the three two-character slices in base 16;
a `ValueError` on any step is modelled as `none`. -/
def hex_to_rgb (s : String) : Option (ℤ × ℤ × ℤ) :=
  let h := lstripHash s.data
  if h.length = 6 then
    match h[0]?, h[1]?, h[2]?, h[3]?, h[4]?, h[5]? with
    | some a, some b, some c, some d, some e, some f =>
      match pyIntBase16Pair a b, pyIntBase16Pair c d, pyIntBase16Pair e f with
      | some r, some g, some bl => some (r, g, bl)
      | _, _, _ => none
    | _, _, _, _, _, _ => none
  else none

/-- Channel interpolation of `get_gradient_color`:
`int(c0 * (1 - t) + c1 * t)`. -/
def lerpChannel (c0 c1 : ℤ) (t : ℚ) : ℤ :=
  pyTrunc ((c0 : ℚ) * (1 - t) + (c1 : ℚ) * t)

/-- Three-channel interpolation, applied componentwise as in the source. -/
def lerpRGB (c0 c1 : ℤ × ℤ × ℤ) (t : ℚ) : ℤ × ℤ × ℤ :=
  (lerpChannel c0.1 c1.1 t, lerpChannel c0.2.1 c1.2.1 t, lerpChannel c0.2.2 c1.2.2 t)

/-- Embedding of `get_gradient_color` (src/color_card_api.py lines 317-335,
identical in src/main.py lines 242-270).  The Python `int(segment)` on the
nonnegative-or-negative float is truncation toward zero, `rgb_colors[-1]`
wraps to the last element, and out-of-range indexing raises (`none`). -/
def get_gradient_color (cs : List (ℤ × ℤ × ℤ)) (t : ℚ) : Option (ℤ × ℤ × ℤ) :=
  if cs.length = 2 then
    match cs[0]?, cs[1]? with
    | some c0, some c1 => some (lerpRGB c0 c1 t)
    | _, _ => none
  else
    let segment : ℚ := t * ((cs.length : ℚ) - 1)
    let segmentIndex : ℤ := pyTrunc segment
    let segmentT : ℚ := segment - (segmentIndex : ℚ)
    if (cs.length : ℤ) - 1 ≤ segmentIndex then
      pyGet cs (-1)
    else
      match pyGet cs segmentIndex, pyGet cs (segmentIndex + 1) with
      | some ca, some cb => some (lerpRGB ca cb segmentT)
      | _, _ => none

/-- Modelled from the spec (§4.1): the N>2 branch of `interpolate` as the
spec words it — `segment = t*(N-1)`, `index = floor(segment)`,
`localT = segment - index`, clamp to the last stop when `index >= N-1`,
otherwise interpolate between `stops[index]` and `stops[index+1]` with each
channel integer-truncated.  Written for comparison against
`get_gradient_color`. -/
def interpolateSpec (cs : List (ℤ × ℤ × ℤ)) (t : ℚ) : Option (ℤ × ℤ × ℤ) :=
  let segment : ℚ := t * ((cs.length : ℚ) - 1)
  let index : ℤ := ⌊segment⌋
  let localT : ℚ := segment - (index : ℚ)
  if (cs.length : ℤ) - 1 ≤ index then
    cs.getLast?
  else
    match cs[index.toNat]?, cs[index.toNat + 1]? with
    | some ca, some cb => some (lerpRGB ca cb localT)
    | _, _ => none

/-- Per-pixel color of the gradient pass of `create_gradient_image`
(src/color_card_api.py lines 74-104), as a function of the direction
string, the canvas size, the palette and the pixel coordinates.  The
`vertical` branch colors row `y` with `t = y/(height-1)`, the `horizontal`
branch colors column `x` with `t = x/(width-1)`, the `bottom-right` branch
and the trailing `else` (diagonal) branch both use
`t = (x/width + y/height)/2`. -/
def gradientPixelColor (direction : String) (cs : List (ℤ × ℤ × ℤ))
    (width height x y : ℕ) : Option (ℤ × ℤ × ℤ) :=
  if direction = "vertical" then
    get_gradient_color cs ((y : ℚ) / ((height : ℚ) - 1))
  else if direction = "horizontal" then
    get_gradient_color cs ((x : ℚ) / ((width : ℚ) - 1))
  else if direction = "bottom-right" then
    get_gradient_color cs (((x : ℚ) / (width : ℚ) + (y : ℚ) / (height : ℚ)) / 2)
  else
    get_gradient_color cs (((x : ℚ) / (width : ℚ) + (y : ℚ) / (height : ℚ)) / 2)

/-- Corner radius of the content panel (src/color_card_api.py line 111). -/
def radius : ℤ := 50

/-- Panel width `int(width * 0.8)` (line 107).  Python evaluates
`width * 0.8` in binary floating point; for every canvas width the program
can see (far below `2^50`) the truncated result agrees with the exact
rational value modelled here. -/
def rectWidth (w : ℤ) : ℤ := pyTrunc ((w : ℚ) * 0.8)

/-- Provisional panel height `int(height * 0.8)` (line 108). -/
def provisionalHeight (h : ℤ) : ℤ := pyTrunc ((h : ℚ) * 0.8)

/-- Horizontal centering `(width - rect_width) // 2` (line 109);
Python `//` is floor division. -/
def rectXPos (w rw : ℤ) : ℤ := Int.fdiv (w - rw) 2

/-- Vertical centering `(height - rect_height) // 2` (lines 110 and 229). -/
def rectYPos (h rh : ℤ) : ℤ := Int.fdiv (h - rh) 2

/-- Measured panel height `content_height + 2 * radius` (line 226). -/
def measuredHeight (contentHeight : ℤ) : ℤ := contentHeight + 2 * radius

/-- Axis-aligned rectangle given by its top-left corner and size. -/
structure PanelRect where
  x : ℤ
  y : ℤ
  w : ℤ
  h : ℤ

/-- Panel rectangle of the provisional pass (lines 107-110): 80% of the
canvas on both axes, centered. -/
def provisionalRect (w h : ℤ) : PanelRect :=
  ⟨rectXPos w (rectWidth w), rectYPos h (provisionalHeight h),
   rectWidth w, provisionalHeight h⟩

/-- Panel rectangle of the measured pass (lines 226-229): the width and
horizontal position of the provisional pass with the height replaced by the
measured content height plus `2 * radius` and the vertical position
recentered. -/
def measuredRect (w h contentHeight : ℤ) : PanelRect :=
  ⟨rectXPos w (rectWidth w), rectYPos h (measuredHeight contentHeight),
   rectWidth w, measuredHeight contentHeight⟩

/-- Glow rectangle (lines 231-235): the panel size inflated by 20 px on
each axis, re-centered on the canvas with the same floor divisions. -/
def glowRect (w h rw rh : ℤ) : PanelRect :=
  ⟨rectXPos w (rw + 20), rectYPos h (rh + 20), rw + 20, rh + 20⟩

/-- Containment of the measured-pass panel in the canvas `[0,w] × [0,h]`. -/
def panelInCanvas (w h contentHeight : ℤ) : Prop :=
  0 ≤ (measuredRect w h contentHeight).x ∧
  (measuredRect w h contentHeight).x + (measuredRect w h contentHeight).w ≤ w ∧
  0 ≤ (measuredRect w h contentHeight).y ∧
  (measuredRect w h contentHeight).y + (measuredRect w h contentHeight).h ≤ h

instance (w h contentHeight : ℤ) : Decidable (panelInCanvas w h contentHeight) := by
  unfold panelInCanvas
  infer_instance

/-- Drawing and compositing steps of `create_gradient_image` that touch the
main canvas or the glow layer, in program order. -/
inductive RenderOp where
  | drawGradient
  | drawGlowShape
  | blurGlow
  | drawPanelFill
  | compositeGlow
  | pasteText
deriving DecidableEq

/-- Step order of `create_gradient_image` with markdown content
(src/color_card_api.py): gradient fill (lines 74-104), glow shape drawing
(lines 239-246), Gaussian blur of the glow layer (line 249), solid panel
fill (lines 252-259), alpha-compositing of the glow layer onto the canvas
(line 262), paste of the text layer (line 265). -/
def renderTraceMarkdown : List RenderOp :=
  [RenderOp.drawGradient, RenderOp.drawGlowShape, RenderOp.blurGlow,
   RenderOp.drawPanelFill, RenderOp.compositeGlow, RenderOp.pasteText]

/-- Step order of `create_gradient_image` without markdown content
(src/color_card_api.py lines 270-302, likewise src/main.py lines 95-120):
gradient, glow shape, blur, panel fill, then glow compositing. -/
def renderTraceNoMarkdown : List RenderOp :=
  [RenderOp.drawGradient, RenderOp.drawGlowShape, RenderOp.blurGlow,
   RenderOp.drawPanelFill, RenderOp.compositeGlow]

/-- The property asserted by the spec: the glow layer is composited onto
the canvas before the solid panel fill is drawn. -/
def glowCompositedBeforeFill (tr : List RenderOp) : Prop :=
  RenderOp.compositeGlow ∈ tr ∧ RenderOp.drawPanelFill ∈ tr ∧
  tr.indexOf RenderOp.compositeGlow < tr.indexOf RenderOp.drawPanelFill

instance (tr : List RenderOp) : Decidable (glowCompositedBeforeFill tr) := by
  unfold glowCompositedBeforeFill
  infer_instance

/-- Order actually realised by the code: the panel fill is drawn before the
glow layer is composited. -/
def fillDrawnBeforeGlowComposite (tr : List RenderOp) : Prop :=
  RenderOp.drawPanelFill ∈ tr ∧ RenderOp.compositeGlow ∈ tr ∧
  tr.indexOf RenderOp.drawPanelFill < tr.indexOf RenderOp.compositeGlow

instance (tr : List RenderOp) : Decidable (fillDrawnBeforeGlowComposite tr) := by
  unfold fillDrawnBeforeGlowComposite
  infer_instance

/-- Single-channel state of one canvas pixel strictly inside the panel
bounds and outside the pasted text box (for example in the margin strip
between `rect_x` and `rect_x + radius`). -/
structure PixelEnv where
  gradientColor : ℚ
  fillColor : ℚ
  glowColor : ℚ
  glowAlpha : ℚ

/-- PIL `alpha_composite` of a source with alpha `a` (out of 255) over an
opaque destination, one channel, in exact rational arithmetic. -/
def blendOver (dst src a : ℚ) : ℚ := dst * (1 - a / 255) + src * (a / 255)

/-- Effect of one render step on the tracked pixel.  `drawGlowShape` and
`blurGlow` act on the separate glow layer only; `pasteText` does not reach
a panel pixel outside the text box; `drawPanelFill` overwrites a pixel
inside the panel bounds; `compositeGlow` alpha-blends the (blurred) glow
layer value at that pixel over the canvas. -/
def stepOp (env : PixelEnv) (cur : ℚ) : RenderOp → ℚ
  | RenderOp.drawGradient => env.gradientColor
  | RenderOp.drawGlowShape => cur
  | RenderOp.blurGlow => cur
  | RenderOp.drawPanelFill => env.fillColor
  | RenderOp.compositeGlow => blendOver cur env.glowColor env.glowAlpha
  | RenderOp.pasteText => cur

/-- Final value of the tracked pixel after executing a render trace. -/
def execTrace (env : PixelEnv) (tr : List RenderOp) : ℚ :=
  tr.foldl (stepOp env) 0

/-- Boundary check of the HTTP handler `generate_image`
(src/color_card_api.py line 363):
`background_color.startswith('#') and len(background_color) == 7`. -/
def validBackgroundFormat (s : String) : Bool :=
  (match s.data with
   | c :: _ => c = '#'
   | [] => false) && s.data.length = 7

/-- Color-conversion stage of `create_gradient_image` (lines 65-72): every
palette entry and the background color are converted with `hex_to_rgb`; a
`ValueError` is caught and the function returns `None` (modelled as
`none`), before any file is written. -/
def colorStage (colors : List String) (bg : String) :
    Option (List (ℤ × ℤ × ℤ) × (ℤ × ℤ × ℤ)) :=
  match colors.mapM hex_to_rgb, hex_to_rgb bg with
  | some rgbs, some bgRgb => some (rgbs, bgRgb)
  | _, _ => none

/-- Outcome of the background-color path of the handler. -/
inductive HandlerResult where
  | badRequest
  | internalError
  | ok
deriving DecidableEq

/-- Background-color path of the HTTP handler `generate_image`
(src/color_card_api.py lines 363-366, 401-412), with the other
validations (id, markdown, direction, palette lookup) assumed to have
passed: a malformed `background_color` is rejected with 400; otherwise,
when `create_gradient_image` returns `None` because the color stage
failed, `send_file(None)` raises and the outer handler answers a generic
500; otherwise the image is returned with 200. -/
def generate_image (colors : List String) (bg : String) : HandlerResult :=
  if validBackgroundFormat bg = false then HandlerResult.badRequest
  else
    match colorStage colors bg with
    | none => HandlerResult.internalError
    | some _ => HandlerResult.ok

/-- Whether the render writes the output file: `create_gradient_image`
reaches the `image.save(output_path)` call only after the color stage (and
the rest of the pipeline) succeeded; a color-stage failure returns `None`
first (lines 70-72, 310-311). -/
def outputFileWritten (colors : List String) (bg : String) : Bool :=
  (colorStage colors bg).isSome

/-- Interpolation at `t = 0` returns the first channel value. -/
theorem lerpChannel_zero (x y : ℤ) : lerpChannel x y 0 = x := by
  unfold lerpChannel
  rw [show ((x : ℚ) * (1 - 0) + (y : ℚ) * 0) = ((x : ℤ) : ℚ) by ring]
  exact pyTrunc_intCast x

/-- Interpolation at `t = 1` returns the second channel value. -/
theorem lerpChannel_one (x y : ℤ) : lerpChannel x y 1 = y := by
  unfold lerpChannel
  rw [show ((x : ℚ) * (1 - 1) + (y : ℚ) * 1) = ((y : ℤ) : ℚ) by ring]
  exact pyTrunc_intCast y

/-- Componentwise interpolation at `t = 0` returns the first stop. -/
theorem lerpRGB_zero (c0 c1 : ℤ × ℤ × ℤ) : lerpRGB c0 c1 0 = c0 := by
  unfold lerpRGB
  rw [lerpChannel_zero, lerpChannel_zero, lerpChannel_zero]

/-- Componentwise interpolation at `t = 1` returns the second stop. -/
theorem lerpRGB_one (c0 c1 : ℤ × ℤ × ℤ) : lerpRGB c0 c1 1 = c1 := by
  unfold lerpRGB
  rw [lerpChannel_one, lerpChannel_one, lerpChannel_one]

/-- Floor division by two commutes with subtracting the even constant 20. -/
theorem fdiv_sub_twenty (a : ℤ) : Int.fdiv (a - 20) 2 = Int.fdiv a 2 - 10 := by
  rw [Int.fdiv_eq_ediv _ (by norm_num), Int.fdiv_eq_ediv _ (by norm_num)]
  rw [show a - 20 = a + (-10) * 2 by ring]
  rw [Int.add_mul_ediv_right _ _ (by norm_num : (2 : ℤ) ≠ 0)]
  ring

/-- Floor division of a nonnegative integer by two does not exceed it. -/
theorem fdiv_two_le_self {a : ℤ} (ha : 0 ≤ a) : Int.fdiv a 2 ≤ a := by
  rw [Int.fdiv_eq_ediv _ (by norm_num)]
  exact Int.ediv_le_self 2 ha

/-- Panel width is nonnegative on a nonnegative canvas width. -/
theorem rectWidth_nonneg {w : ℤ} (hw : 0 ≤ w) : 0 ≤ rectWidth w := by
  unfold rectWidth
  rw [pyTrunc_eq_floor _ (by positivity)]
  exact Int.floor_nonneg.mpr (by positivity)

/-- Panel width does not exceed the canvas width. -/
theorem rectWidth_le {w : ℤ} (hw : 0 ≤ w) : rectWidth w ≤ w := by
  unfold rectWidth
  rw [pyTrunc_eq_floor _ (by positivity)]
  have hwq : (0 : ℚ) ≤ (w : ℚ) := by exact_mod_cast hw
  calc ⌊(w : ℚ) * 0.8⌋ ≤ ⌊((w : ℤ) : ℚ)⌋ := Int.floor_le_floor (by nlinarith)
    _ = w := Int.floor_intCast w

/-- C5: the `bottom-right` (corner) and `diagonal` direction modes of
`create_gradient_image` assign every pixel the same color
`get_gradient_color(palette, (x/width + y/height)/2)`, so the two modes
are extensionally equal and render pixel-identical output. -/
theorem corner_diagonal_pixel_identical (cs : List (ℤ × ℤ × ℤ))
    (width height x y : ℕ) :
    gradientPixelColor "bottom-right" cs width height x y =
      gradientPixelColor "diagonal" cs width height x y ∧
    gradientPixelColor "bottom-right" cs width height x y =
      get_gradient_color cs (((x : ℚ) / (width : ℚ) + (y : ℚ) / (height : ℚ)) / 2) :=
  ⟨rfl, rfl⟩

/-- C8: with markdown content, the measured pass keeps the panel width
`int(0.8 * width)` and the horizontal position `(width - rect_width) // 2`
exactly as the provisional pass computed them, and changes only the height
(to the measured content height plus `2 * radius`) and the vertical
position (recentered as `(height - rect_height) // 2`). -/
theorem measured_pass_frame_effect (w h contentHeight : ℤ) :
    (measuredRect w h contentHeight).w = (provisionalRect w h).w ∧
    (measuredRect w h contentHeight).x = (provisionalRect w h).x ∧
    (provisionalRect w h).w = rectWidth w ∧
    (provisionalRect w h).x = rectXPos w (rectWidth w) ∧
    (measuredRect w h contentHeight).h = contentHeight + 2 * radius ∧
    (measuredRect w h contentHeight).y =
      Int.fdiv (h - (contentHeight + 2 * radius)) 2 :=
  ⟨rfl, rfl, rfl, rfl, rfl, rfl⟩

/-- C9: for every canvas size and every panel size, the glow rectangle
(panel size inflated by 20 px and recentered with floor divisions) has
exactly the same center point as the centered panel rectangle on both
axes, in exact rational arithmetic. -/
theorem glow_concentric_with_panel (w h rw rh : ℤ) :
    ((glowRect w h rw rh).x : ℚ) + ((glowRect w h rw rh).w : ℚ) / 2 =
      (rectXPos w rw : ℚ) + (rw : ℚ) / 2 ∧
    ((glowRect w h rw rh).y : ℚ) + ((glowRect w h rw rh).h : ℚ) / 2 =
      (rectYPos h rh : ℚ) + (rh : ℚ) / 2 := by
  have hx : (glowRect w h rw rh).x = rectXPos w rw - 10 := by
    show rectXPos w (rw + 20) = rectXPos w rw - 10
    unfold rectXPos
    rw [show w - (rw + 20) = (w - rw) - 20 by ring]
    exact fdiv_sub_twenty (w - rw)
  have hy : (glowRect w h rw rh).y = rectYPos h rh - 10 := by
    show rectYPos h (rh + 20) = rectYPos h rh - 10
    unfold rectYPos
    rw [show h - (rh + 20) = (h - rh) - 20 by ring]
    exact fdiv_sub_twenty (h - rh)
  constructor
  · rw [hx, show (glowRect w h rw rh).w = rw + 20 from rfl]
    push_cast
    ring
  · rw [hy, show (glowRect w h rw rh).h = rh + 20 from rfl]
    push_cast
    ring

/-- C1 counterexample: in both render traces of `create_gradient_image`
(with and without markdown content) the glow layer is NOT composited onto
the canvas before the solid panel fill is drawn — the source draws the
panel fill first (lines 252-259) and alpha-composites the glow afterwards
(line 262). -/
theorem glow_before_fill_cex :
    ¬ glowCompositedBeforeFill renderTraceMarkdown ∧
    ¬ glowCompositedBeforeFill renderTraceNoMarkdown := by
  decide

/-- C1 amended: in both render traces the solid panel fill is drawn before
the glow layer is composited, so at a pixel strictly inside the panel
bounds (and outside the pasted text box) the final value is the
semi-transparent blurred glow alpha-blended OVER the panel fill — which
differs from the pure panel fill whenever the glow has nonzero alpha and a
tint different from the fill. -/
theorem glow_composited_after_fill (env : PixelEnv)
    (ha : env.glowAlpha ≠ 0) (hg : env.glowColor ≠ env.fillColor) :
    fillDrawnBeforeGlowComposite renderTraceMarkdown ∧
    fillDrawnBeforeGlowComposite renderTraceNoMarkdown ∧
    execTrace env renderTraceMarkdown =
      blendOver env.fillColor env.glowColor env.glowAlpha ∧
    execTrace env renderTraceMarkdown ≠ env.fillColor := by
  refine ⟨by decide, by decide, rfl, ?_⟩
  have hexec : execTrace env renderTraceMarkdown =
      blendOver env.fillColor env.glowColor env.glowAlpha := rfl
  rw [hexec]
  unfold blendOver
  intro hEq
  apply hg
  have hz : (env.glowColor - env.fillColor) * (env.glowAlpha / 255) = 0 := by
    linear_combination hEq
  rcases mul_eq_zero.mp hz with h1 | h2
  · exact sub_eq_zero.mp h1
  · exact absurd (by field_simp at h2; exact h2) ha

/-- C1 witness: concrete instance of the amended theorem with a white
panel fill, a black glow tint and the source's glow alpha of 100. -/
theorem glow_composited_after_fill_witness :
    execTrace ⟨0, 255, 0, 100⟩ renderTraceMarkdown ≠ (255 : ℚ) :=
  (glow_composited_after_fill ⟨0, 255, 0, 100⟩ (by norm_num) (by norm_num)).2.2.2

/-- C2 counterexample: at the reference canvas 1080 × 1920 with a measured
content height of 2000 px (tall markdown), the measured-pass panel top
`rect_y = (1920 - 2100) // 2 = -90` is negative, so the computed panel
bounds do NOT lie within the canvas. -/
theorem panel_containment_cex :
    0 < (1080 : ℤ) ∧ 0 < (1920 : ℤ) ∧ 0 ≤ (2000 : ℤ) ∧
    (measuredRect 1080 1920 2000).y = -90 ∧
    ¬ panelInCanvas 1080 1920 2000 := by
  refine ⟨by norm_num, by norm_num, by norm_num, ?_, ?_⟩
  · show rectYPos 1920 (measuredHeight 2000) = -90
    norm_num [rectYPos, measuredHeight, radius]
    rfl
  · unfold panelInCanvas
    norm_num [measuredRect, rectYPos, rectXPos, measuredHeight, radius,
      rectWidth, pyTrunc]
    decide

/-- C2 amended: for every nonnegative canvas width, every nonnegative
measured content height, and every canvas height large enough to hold the
measured panel (`content height + 2 * radius ≤ height`), the measured-pass
panel bounds lie fully within the canvas `[0,width] × [0,height]`. -/
theorem panel_containment (w h contentHeight : ℤ) (hw : 0 ≤ w)
    (hch : 0 ≤ contentHeight) (hfit : contentHeight + 2 * radius ≤ h) :
    panelInCanvas w h contentHeight := by
  have hrw0 : 0 ≤ rectWidth w := rectWidth_nonneg hw
  have hrww : rectWidth w ≤ w := rectWidth_le hw
  have hrh0 : 0 ≤ measuredHeight contentHeight := by
    unfold measuredHeight radius
    omega
  have hrhh : measuredHeight contentHeight ≤ h := hfit
  refine ⟨?_, ?_, ?_, ?_⟩
  · exact Int.fdiv_nonneg (by omega) (by norm_num)
  · show rectXPos w (rectWidth w) + rectWidth w ≤ w
    have := fdiv_two_le_self (a := w - rectWidth w) (by omega)
    unfold rectXPos
    omega
  · exact Int.fdiv_nonneg (by omega) (by norm_num)
  · show rectYPos h (measuredHeight contentHeight) + measuredHeight contentHeight ≤ h
    have := fdiv_two_le_self (a := h - measuredHeight contentHeight) (by omega)
    unfold rectYPos
    omega

/-- C2 witness: the amended containment at the reference canvas with a
content height of 500 px. -/
theorem panel_containment_witness :
    0 ≤ (1080 : ℤ) ∧ 0 ≤ (500 : ℤ) ∧ (500 : ℤ) + 2 * radius ≤ 1920 ∧
    panelInCanvas 1080 1920 500 :=
  ⟨by norm_num, by norm_num, by norm_num [radius],
   panel_containment 1080 1920 500 (by norm_num) (by norm_num)
     (by norm_num [radius])⟩

/-- Stripping leading hash marks skips every replicated `'#'` prefix. -/
theorem lstripHash_replicate (n : ℕ) (rest : List Char) :
    lstripHash (List.replicate n '#' ++ rest) = lstripHash rest := by
  induction n with
  | zero => simp
  | succ k ih => simpa [List.replicate_succ, lstripHash] using ih

/-- Stripping leading hash marks stops at a non-hash head. -/
theorem lstripHash_cons_of_ne {c : Char} (h : c ≠ '#') (cs : List Char) :
    lstripHash (c :: cs) = c :: cs := by
  simp [lstripHash, h]

/-- Hexadecimal digits are not the hash character. -/
theorem ne_hash_of_isHexDigit {c : Char} (h : isHexDigit c = true) : c ≠ '#' := by
  intro hc
  rw [hc] at h
  exact absurd h (by decide)

/-- Base-16 parsing of two hexadecimal digits succeeds with their value. -/
theorem pyIntBase16Pair_of_hex {a b : Char} (ha : isHexDigit a = true)
    (hb : isHexDigit b = true) :
    pyIntBase16Pair a b = some (16 * hexVal a + hexVal b) := by
  unfold pyIntBase16Pair
  rw [ha, hb]
  rfl

/-- C3 counterexample: `hex_to_rgb` accepts `"##FF0000"` (two leading hash
marks) because Python `lstrip('#')` removes every leading `'#'`, and it
also accepts `"#+10abc"` even though `'+'` is not a hexadecimal digit,
because CPython `int(s, 16)` tolerates a sign in each two-character slice;
the claim asserts both inputs must fail. -/
theorem hex_to_rgb_cex :
    hex_to_rgb "##FF0000" = some (255, 0, 0) ∧
    hex_to_rgb "#+10abc" = some (1, 10, 188) ∧
    isHexDigit '+' = false := by
  refine ⟨by decide, by decide, by decide⟩

/-- C3 amended: `hex_to_rgb` strips ALL leading `'#'` characters; any
input consisting of any number of leading `'#'` followed by exactly six
hexadecimal digits succeeds with the corresponding channel triple, and any
input whose stripped remainder does not have exactly six characters fails.
On six-character remainders, success is governed by CPython base-16
parsing of the three two-character slices, which also tolerates sign and
whitespace forms such as `"#+10abc"`. -/
theorem hex_to_rgb_amended (n : ℕ) (a b c d e f : Char) (s : String)
    (ha : isHexDigit a = true) (hb : isHexDigit b = true)
    (hc : isHexDigit c = true) (hd : isHexDigit d = true)
    (he : isHexDigit e = true) (hf : isHexDigit f = true)
    (hs : (lstripHash s.data).length ≠ 6) :
    hex_to_rgb ⟨List.replicate n '#' ++ [a, b, c, d, e, f]⟩ =
      some (16 * hexVal a + hexVal b, 16 * hexVal c + hexVal d,
        16 * hexVal e + hexVal f) ∧
    hex_to_rgb s = none := by
  constructor
  · unfold hex_to_rgb
    rw [show (⟨List.replicate n '#' ++ [a, b, c, d, e, f]⟩ : String).data =
        List.replicate n '#' ++ [a, b, c, d, e, f] from rfl]
    rw [lstripHash_replicate, lstripHash_cons_of_ne (ne_hash_of_isHexDigit ha)]
    simp only [List.length_cons, List.length_nil, if_pos]
    rw [List.getElem?_cons_zero]
    simp only [List.getElem?_cons_succ, List.getElem?_cons_zero]
    rw [pyIntBase16Pair_of_hex ha hb, pyIntBase16Pair_of_hex hc hd,
      pyIntBase16Pair_of_hex he hf]
  · unfold hex_to_rgb
    exact if_neg hs

/-- C3 witness: the amended theorem applied at three leading hash marks
followed by `00ff7f`, and at the short input `"#abc"`. -/
theorem hex_to_rgb_amended_witness :
    hex_to_rgb ⟨List.replicate 3 '#' ++ ['0', '0', 'f', 'f', '7', 'f']⟩ =
      some (0, 255, 127) ∧
    hex_to_rgb "#abc" = none := by
  have h := hex_to_rgb_amended 3 '0' '0' 'f' 'f' '7' 'f' "#abc"
    (by decide) (by decide) (by decide) (by decide) (by decide) (by decide)
    (by decide)
  exact ⟨by rw [h.1]; decide, h.2⟩

/-- C10 counterexample: the background color `"#+10abc"` is a `'#'`
followed by six characters that are not all hexadecimal digits, it passes
the handler's boundary validation, and yet the render succeeds and the
request answers 200 with the output file written — not the generic 500 the
claim asserts for every such input. -/
theorem invalid_bg_500_cex :
    validBackgroundFormat "#+10abc" = true ∧
    isHexDigit '+' = false ∧
    generate_image ["#000000", "#FFFFFF"] "#+10abc" = HandlerResult.ok ∧
    outputFileWritten ["#000000", "#FFFFFF"] "#+10abc" = true := by
  refine ⟨by decide, by decide, by decide, by decide⟩

/-- C10 amended: for every palette and every background color of the form
`'#'` followed by six characters whose hex conversion fails (three
two-character slices not all parseable in base 16 — not merely "not all
hex digits"), the boundary validation passes, `create_gradient_image`
catches the `ValueError` and returns `None`, no output file is written,
and the request fails with the generic 500 internal error rather than a
400 rejection. -/
theorem invalid_bg_500 (colors : List String) (rest : List Char)
    (hlen : rest.length = 6)
    (hparse : hex_to_rgb ⟨'#' :: rest⟩ = none) :
    validBackgroundFormat ⟨'#' :: rest⟩ = true ∧
    generate_image colors ⟨'#' :: rest⟩ = HandlerResult.internalError ∧
    outputFileWritten colors ⟨'#' :: rest⟩ = false := by
  have hv : validBackgroundFormat ⟨'#' :: rest⟩ = true := by
    unfold validBackgroundFormat
    simp [hlen]
  have hcs : colorStage colors ⟨'#' :: rest⟩ = none := by
    unfold colorStage
    rw [hparse]
    cases colors.mapM hex_to_rgb <;> rfl
  refine ⟨hv, ?_, ?_⟩
  · unfold generate_image
    rw [hv, hcs]
    rfl
  · unfold outputFileWritten
    rw [hcs]
    rfl

/-- C10 witness: the amended theorem at the palette `["#000000"]` and the
background color `"#GGGGGG"` from the claim. -/
theorem invalid_bg_500_witness :
    validBackgroundFormat ⟨'#' :: ['G', 'G', 'G', 'G', 'G', 'G']⟩ = true ∧
    generate_image ["#000000"] ⟨'#' :: ['G', 'G', 'G', 'G', 'G', 'G']⟩ =
      HandlerResult.internalError ∧
    outputFileWritten ["#000000"] ⟨'#' :: ['G', 'G', 'G', 'G', 'G', 'G']⟩ = false :=
  invalid_bg_500 ["#000000"] ['G', 'G', 'G', 'G', 'G', 'G'] (by decide) (by decide)

/-- Truncation of zero is zero. -/
theorem pyTrunc_zero : pyTrunc 0 = 0 := by
  rw [show (0 : ℚ) = ((0 : ℤ) : ℚ) by norm_num, pyTrunc_intCast]

/-- Channel interpolation is nondecreasing in `t` when the second stop
dominates the first, truncation included. -/
theorem lerpChannel_mono {x y : ℤ} {t u : ℚ} (hxy : x ≤ y) (htu : t ≤ u) :
    lerpChannel x y t ≤ lerpChannel x y u := by
  unfold lerpChannel
  apply pyTrunc_mono
  have hxyq : (x : ℚ) ≤ (y : ℚ) := by exact_mod_cast hxy
  nlinarith [mul_nonneg (sub_nonneg.mpr hxyq) (sub_nonneg.mpr htu)]

/-- Channel interpolation is nonincreasing in `t` when the first stop
dominates the second, truncation included. -/
theorem lerpChannel_anti {x y : ℤ} {t u : ℚ} (hxy : y ≤ x) (htu : t ≤ u) :
    lerpChannel x y u ≤ lerpChannel x y t := by
  unfold lerpChannel
  apply pyTrunc_mono
  have hxyq : (y : ℚ) ≤ (x : ℚ) := by exact_mod_cast hxy
  nlinarith [mul_nonneg (sub_nonneg.mpr hxyq) (sub_nonneg.mpr htu)]

/-- Evaluation of `get_gradient_color` on a two-stop palette. -/
theorem gradient_two_stop (c0 c1 : ℤ × ℤ × ℤ) (t : ℚ) :
    get_gradient_color [c0, c1] t = some (lerpRGB c0 c1 t) := by
  unfold get_gradient_color
  simp

/-- C4: on every palette of more than two stops and every `t` in `[0,1]`,
`get_gradient_color` computes exactly the spec's formula: `segment =
t*(N-1)`, `index = floor(segment)`, `localT = segment - index`, the last
stop when `index ≥ N-1`, and otherwise the per-channel linear
interpolation between `stops[index]` and `stops[index+1]` with each
channel integer-truncated. -/
theorem gradient_matches_spec (cs : List (ℤ × ℤ × ℤ)) (t : ℚ)
    (h3 : 3 ≤ cs.length) (ht0 : 0 ≤ t) (ht1 : t ≤ 1) :
    get_gradient_color cs t = interpolateSpec cs t := by
  have hne : cs.length ≠ 2 := by omega
  have hlenq : (1 : ℚ) ≤ (cs.length : ℚ) := by exact_mod_cast Nat.one_le_of_lt h3
  have hseg : (0 : ℚ) ≤ t * ((cs.length : ℚ) - 1) :=
    mul_nonneg ht0 (by linarith)
  unfold get_gradient_color interpolateSpec
  rw [if_neg hne]
  simp only [pyTrunc_eq_floor _ hseg]
  by_cases hc : (cs.length : ℤ) - 1 ≤ ⌊t * ((cs.length : ℚ) - 1)⌋
  · rw [if_pos hc, if_pos hc, pyGet_neg_one]
  · rw [if_neg hc, if_neg hc]
    have hi0 : 0 ≤ ⌊t * ((cs.length : ℚ) - 1)⌋ := Int.floor_nonneg.mpr hseg
    rw [pyGet_nonneg _ hi0, pyGet_nonneg _ (by omega)]
    rw [show (⌊t * ((cs.length : ℚ) - 1)⌋ + 1).toNat =
        ⌊t * ((cs.length : ℚ) - 1)⌋.toNat + 1 by omega]

/-- C4 witness: the equality at a three-stop palette and `t = 1/2`. -/
theorem gradient_matches_spec_witness :
    3 ≤ ([((0 : ℤ), 0, 0), (100, 40, 20), (255, 255, 255)] :
      List (ℤ × ℤ × ℤ)).length ∧
    (0 : ℚ) ≤ 1 / 2 ∧ (1 / 2 : ℚ) ≤ 1 ∧
    get_gradient_color [((0 : ℤ), 0, 0), (100, 40, 20), (255, 255, 255)] (1 / 2) =
      interpolateSpec [((0 : ℤ), 0, 0), (100, 40, 20), (255, 255, 255)] (1 / 2) :=
  ⟨by decide, by norm_num, by norm_num,
   gradient_matches_spec _ _ (by decide) (by norm_num) (by norm_num)⟩

/-- C6: on every palette of at least two stops, `get_gradient_color` at
`t = 0` returns the first stop and at `t = 1` returns the last stop. -/
theorem gradient_boundary (cs : List (ℤ × ℤ × ℤ)) (h2 : 2 ≤ cs.length) :
    get_gradient_color cs 0 = cs.head? ∧ get_gradient_color cs 1 = cs.getLast? := by
  cases cs with
  | nil => simp at h2
  | cons c0 cs1 =>
    cases cs1 with
    | nil => simp at h2
    | cons c1 rest =>
      cases rest with
      | nil =>
        constructor
        · show get_gradient_color [c0, c1] 0 = some c0
          unfold get_gradient_color
          simp [lerpRGB_zero]
        · show get_gradient_color [c0, c1] 1 = some c1
          unfold get_gradient_color
          simp [lerpRGB_one]
      | cons c2 rest2 =>
        have hne : (c0 :: c1 :: c2 :: rest2).length ≠ 2 := by simp
        constructor
        · unfold get_gradient_color
          rw [if_neg hne]
          simp only [zero_mul, pyTrunc_zero]
          rw [if_neg (by simp; omega)]
          rw [pyGet_nonneg _ (by norm_num), pyGet_nonneg _ (by norm_num)]
          simp [lerpRGB_zero]
        · unfold get_gradient_color
          rw [if_neg hne]
          have hcast : (1 : ℚ) * (((c0 :: c1 :: c2 :: rest2).length : ℚ) - 1) =
              ((((c0 :: c1 :: c2 :: rest2).length : ℤ) - 1 : ℤ) : ℚ) := by
            push_cast
            ring
          simp only [hcast, pyTrunc_intCast]
          rw [if_pos (le_refl _)]
          exact pyGet_neg_one _

/-- C6 witness: the boundary property at a concrete three-stop palette. -/
theorem gradient_boundary_witness :
    2 ≤ ([((10 : ℤ), 20, 30), (0, 0, 0), (40, 50, 60)] :
      List (ℤ × ℤ × ℤ)).length ∧
    get_gradient_color [((10 : ℤ), 20, 30), (0, 0, 0), (40, 50, 60)] 0 =
      some (10, 20, 30) ∧
    get_gradient_color [((10 : ℤ), 20, 30), (0, 0, 0), (40, 50, 60)] 1 =
      some (40, 50, 60) :=
  ⟨by decide, (gradient_boundary _ (by decide)).1, (gradient_boundary _ (by decide)).2⟩

/-- C7: for every two-stop palette and `0 ≤ t ≤ u ≤ 1`, every channel of
`get_gradient_color` is monotonic: nondecreasing when the second stop's
channel is at least the first's, nonincreasing otherwise, despite the
integer truncation of each interpolated channel. -/
theorem gradient_monotone (c0 c1 p q : ℤ × ℤ × ℤ) (t u : ℚ)
    (ht0 : 0 ≤ t) (hu1 : u ≤ 1) (htu : t ≤ u)
    (hp : get_gradient_color [c0, c1] t = some p)
    (hq : get_gradient_color [c0, c1] u = some q) :
    (c0.1 ≤ c1.1 → p.1 ≤ q.1) ∧ (c1.1 < c0.1 → q.1 ≤ p.1) ∧
    (c0.2.1 ≤ c1.2.1 → p.2.1 ≤ q.2.1) ∧ (c1.2.1 < c0.2.1 → q.2.1 ≤ p.2.1) ∧
    (c0.2.2 ≤ c1.2.2 → p.2.2 ≤ q.2.2) ∧ (c1.2.2 < c0.2.2 → q.2.2 ≤ p.2.2) := by
  rw [gradient_two_stop] at hp hq
  have hp2 : p = lerpRGB c0 c1 t := (Option.some.inj hp).symm
  have hq2 : q = lerpRGB c0 c1 u := (Option.some.inj hq).symm
  subst hp2
  subst hq2
  refine ⟨fun h => lerpChannel_mono h htu, fun h => lerpChannel_anti h.le htu,
    fun h => lerpChannel_mono h htu, fun h => lerpChannel_anti h.le htu,
    fun h => lerpChannel_mono h htu, fun h => lerpChannel_anti h.le htu⟩

/-- C7 witness: monotonicity instantiated at a concrete two-stop palette
whose red channel rises, green channel falls and blue channel is
constant, at `t = 0` and `u = 1`. -/
theorem gradient_monotone_witness :
    get_gradient_color [((0 : ℤ), 9, 5), (255, 3, 5)] 0 = some (0, 9, 5) ∧
    get_gradient_color [((0 : ℤ), 9, 5), (255, 3, 5)] 1 = some (255, 3, 5) ∧
    (((0 : ℤ) ≤ 255 → (0 : ℤ) ≤ 255) ∧ ((255 : ℤ) < 0 → (255 : ℤ) ≤ 0) ∧
     ((9 : ℤ) ≤ 3 → (9 : ℤ) ≤ 3) ∧ ((3 : ℤ) < 9 → (3 : ℤ) ≤ 9) ∧
     ((5 : ℤ) ≤ 5 → (5 : ℤ) ≤ 5) ∧ ((5 : ℤ) < 5 → (5 : ℤ) ≤ 5)) := by
  have hp : get_gradient_color [((0 : ℤ), 9, 5), (255, 3, 5)] 0 = some (0, 9, 5) := by
    rw [gradient_two_stop, lerpRGB_zero]
  have hq : get_gradient_color [((0 : ℤ), 9, 5), (255, 3, 5)] 1 = some (255, 3, 5) := by
    rw [gradient_two_stop, lerpRGB_one]
  exact ⟨hp, hq, gradient_monotone (0, 9, 5) (255, 3, 5) (0, 9, 5) (255, 3, 5)
    0 1 le_rfl le_rfl (by norm_num) hp hq⟩

end ColorCard
